import Mathlib

set_option autoImplicit false

/-
  Verification of the ConnectorPro CSV ingestion pipeline
  (python-backend/csv_service_simple.py, csv_service_enhanced.py,
  csv_service.py, models.py), as a shallow embedding in Lean 4.

  Strings are modelled as Lean `String` (lists of characters); Python byte
  buffers as `List Nat` (one entry per byte); Python dicts keyed by strings
  as association lists; `datetime` values as a record of numeric fields,
  with the wall clock passed in explicitly.  Python string methods used by
  the source (`strip`, `lower`, `split`, `title`, `replace`, `in`, ...)
  are modelled character-for-character below for the ASCII inputs the
  pipeline manipulates.
-/

namespace ConnectorPro

/-! ## Python string primitives -/

/-- Python `str.strip` whitespace set: space, tab, newline, CR, VT, FF. -/
def pyIsSpace (c : Char) : Bool :=
  c == ' ' || c == '\t' || c == '\n' || c == '\r' || c == '\x0b' || c == '\x0c'

/-- List form of Python `str.strip`. -/
def trimChars (l : List Char) : List Char :=
  ((l.dropWhile pyIsSpace).reverse.dropWhile pyIsSpace).reverse

/-- Python `s.strip()`. -/
def pyStrip (s : String) : String := ⟨trimChars s.data⟩

/-- Python `s.lower()` (ASCII case folding, which covers the pipeline's inputs). -/
def pyLower (s : String) : String := ⟨s.data.map Char.toLower⟩

/-- Python `p in l` on sequences: `p` occurs contiguously inside `l`. -/
def occursInList {α : Type} [BEq α] (p : List α) : List α → Bool
  | [] => p.isEmpty
  | c :: t => p.isPrefixOf (c :: t) || occursInList p t

/-- Python `pat in s` on strings. -/
def strContains (s pat : String) : Bool := occursInList pat.data s.data

/-- Python `s.startswith(pat)` on strings. -/
def strStarts (s pat : String) : Bool := pat.data.isPrefixOf s.data

/-- Splits a character list into maximal non-whitespace runs, as Python
`s.split()` with no argument does (empty pieces are dropped); `cur` holds
the reversed run currently being read. -/
def pyWordsGo (cur : List Char) : List Char → List (List Char)
  | [] => if cur.isEmpty then [] else [cur.reverse]
  | c :: t =>
    if pyIsSpace c then
      (if cur.isEmpty then pyWordsGo [] t else cur.reverse :: pyWordsGo [] t)
    else pyWordsGo (c :: cur) t

/-- Python `s.split()` with no argument. -/
def pyWordsAux (l : List Char) : List (List Char) := pyWordsGo [] l

/-- Python `s.split('\n')`: every newline is a separator and empty pieces
are kept, so the result is never empty.  `cur` holds the reversed piece
currently being read. -/
def splitLinesGo (cur : List Char) : List Char → List String
  | [] => [⟨cur.reverse⟩]
  | c :: t =>
    if c == '\n' then (⟨cur.reverse⟩ : String) :: splitLinesGo [] t
    else splitLinesGo (c :: cur) t

/-- Python `s.split('\n')`. -/
def pySplitNewline (s : String) : List String := splitLinesGo [] s.data

/-- Python `' '.join(pieces)`. -/
def joinWithSpace : List (List Char) → List Char
  | [] => []
  | [w] => w
  | w :: ws => w ++ ' ' :: joinWithSpace ws

/-- Python single-character `s.replace(a, b)` (a character map). -/
def replChar (a b : Char) (l : List Char) : List Char :=
  l.map fun c => if c == a then b else c

/-- Python `s.replace(a, '')` for a single character: drop every occurrence. -/
def dropChar (a : Char) (l : List Char) : List Char :=
  l.filter fun c => !(c == a)

/-- Python `str.title()` for ASCII text: the first letter after a non-letter
is upper-cased, subsequent letters are lower-cased. -/
def pyTitleAux : Bool → List Char → List Char
  | _, [] => []
  | prevAlpha, c :: t =>
    if c.isAlpha then
      (if prevAlpha then c.toLower else c.toUpper) :: pyTitleAux true t
    else c :: pyTitleAux false t

/-- Python `s.title()`. -/
def pyTitle (s : String) : String := ⟨pyTitleAux false s.data⟩

/-! ## Python dicts of strings, modelled as association lists -/

/-- `row.get(k, '')`, and also the `k in row and row[k]` truthiness pattern:
a missing key and an empty value are indistinguishable to the source's
truthiness tests, so both are represented by `""`. -/
def dictGet (d : List (String × String)) (k : String) : String :=
  match d.lookup k with
  | some v => v
  | none => ""

/-- `d[k] = v` on a Python dict: replace in place or append. -/
def dictInsert : List (String × String) → String → String → List (String × String)
  | [], k, v => [(k, v)]
  | (a, b) :: t, k, v => if a == k then (a, v) :: t else (a, b) :: dictInsert t k v

/-- `list(d.keys())` of a Python dict (insertion order). -/
def dictKeys (d : List (String × String)) : List String := d.map Prod.fst

/-! ## Field-name normalization (CSVService.normalize_field_name)

The synonym tables are transcribed from the `field_mappings` dict built in
`CSVService.__init__` of csv_service_simple.py and csv_service_enhanced.py. -/

def fieldMappingsSimple : List (String × String) := [
  ("first name", "first_name"), ("first_name", "first_name"),
  ("firstname", "first_name"), ("fname", "first_name"),
  ("given name", "first_name"), ("given_name", "first_name"),
  ("givenname", "first_name"),
  ("last name", "last_name"), ("last_name", "last_name"),
  ("lastname", "last_name"), ("lname", "last_name"),
  ("surname", "last_name"), ("family name", "last_name"),
  ("family_name", "last_name"), ("familyname", "last_name"),
  ("name", "name"), ("full name", "name"), ("full_name", "name"),
  ("fullname", "name"), ("contact name", "name"), ("contact_name", "name"),
  ("contactname", "name"),
  ("email", "email"), ("email address", "email"), ("email_address", "email"),
  ("emailaddress", "email"), ("e-mail", "email"), ("e_mail", "email"),
  ("e mail", "email"), ("mail", "email"), ("contact email", "email"),
  ("contact_email", "email"), ("contactemail", "email"),
  ("phone", "phone"), ("phone number", "phone"), ("phone_number", "phone"),
  ("phonenumber", "phone"), ("mobile", "phone"), ("mobile number", "phone"),
  ("mobile_number", "phone"), ("mobilenumber", "phone"), ("cell", "phone"),
  ("cell phone", "phone"), ("cell_phone", "phone"), ("cellphone", "phone"),
  ("telephone", "phone"), ("tel", "phone"), ("contact phone", "phone"),
  ("contact_phone", "phone"), ("contactphone", "phone"),
  ("company", "company"), ("organization", "company"),
  ("organisation", "company"), ("employer", "company"),
  ("workplace", "company"), ("work place", "company"),
  ("business", "company"), ("firm", "company"), ("corp", "company"),
  ("corporation", "company"),
  ("title", "title"), ("position", "title"), ("job title", "title"),
  ("job_title", "title"), ("jobtitle", "title"), ("role", "title"),
  ("designation", "title"), ("job", "title"), ("occupation", "title"),
  ("work title", "title"), ("work_title", "title"), ("worktitle", "title"),
  ("url", "profile_url"), ("profile url", "profile_url"),
  ("profile_url", "profile_url"), ("profileurl", "profile_url"),
  ("linkedin", "profile_url"), ("linkedin url", "profile_url"),
  ("linkedin_url", "profile_url"), ("linkedinurl", "profile_url"),
  ("linkedin profile", "profile_url"), ("linkedin_profile", "profile_url"),
  ("linkedinprofile", "profile_url"), ("profile", "profile_url"),
  ("link", "profile_url"),
  ("connected on", "connected_on"), ("connected_on", "connected_on"),
  ("connectedon", "connected_on"), ("connection date", "connected_on"),
  ("connection_date", "connected_on"), ("connectiondate", "connected_on"),
  ("date connected", "connected_on"), ("date_connected", "connected_on"),
  ("dateconnected", "connected_on"),
  ("notes", "notes"), ("comments", "notes"), ("description", "notes"),
  ("note", "notes"), ("comment", "notes")]

def fieldMappingsEnhanced : List (String × String) := [
  ("first name", "first_name"), ("last name", "last_name"),
  ("url", "profile_url"), ("email address", "email"),
  ("company", "company"), ("position", "title"),
  ("connected on", "connected_on"),
  ("first_name", "first_name"), ("firstname", "first_name"),
  ("fname", "first_name"), ("given name", "first_name"),
  ("given_name", "first_name"),
  ("last_name", "last_name"), ("lastname", "last_name"),
  ("lname", "last_name"), ("surname", "last_name"),
  ("family name", "last_name"), ("family_name", "last_name"),
  ("name", "name"), ("full name", "name"), ("full_name", "name"),
  ("fullname", "name"),
  ("email", "email"), ("e-mail", "email"), ("e_mail", "email"),
  ("mail", "email"),
  ("phone", "phone"), ("phone number", "phone"), ("phone_number", "phone"),
  ("mobile", "phone"), ("telephone", "phone"), ("tel", "phone"),
  ("organization", "company"), ("organisation", "company"),
  ("employer", "company"), ("workplace", "company"),
  ("title", "title"), ("job title", "title"), ("job_title", "title"),
  ("role", "title"), ("designation", "title"),
  ("profile url", "profile_url"), ("profile_url", "profile_url"),
  ("linkedin", "profile_url"), ("linkedin url", "profile_url"),
  ("linkedin_url", "profile_url"), ("linkedin profile", "profile_url"),
  ("linkedin_profile", "profile_url"), ("profile", "profile_url"),
  ("link", "profile_url"),
  ("connected_on", "connected_on"), ("connection date", "connected_on"),
  ("connection_date", "connected_on"), ("date connected", "connected_on"),
  ("date_connected", "connected_on"),
  ("notes", "notes"), ("comments", "notes"), ("description", "notes"),
  ("note", "notes"), ("comment", "notes")]

/-- `CSVService.normalize_field_name`, parametrized by the instance's
synonym table (the function body is identical in both service variants). -/
def normalizeFieldNameWith (mappings : List (String × String)) (fieldName : String) : String :=
  if fieldName == "" then ""
  else
    -- lower-case, strip, turn '-', '_' and '.' into spaces, collapse whitespace
    let cleaned := joinWithSpace (pyWordsAux
      (replChar '.' ' ' (replChar '_' ' ' (replChar '-' ' '
        (trimChars (fieldName.data.map Char.toLower))))))
    let normalized : String := ⟨cleaned⟩
    match mappings.lookup normalized with
    | some v => v
    | none =>
      let noSpaces : String := ⟨dropChar ' ' cleaned⟩
      match mappings.lookup noSpaces with
      | some v => v
      | none =>
        let withUnderscores : String := ⟨replChar ' ' '_' cleaned⟩
        match mappings.lookup withUnderscores with
        | some v => v
        | none => if withUnderscores == "" then normalized else withUnderscores

/-- `normalize_field_name` of csv_service_simple.py. -/
def normalizeFieldName (fieldName : String) : String :=
  normalizeFieldNameWith fieldMappingsSimple fieldName

/-- `normalize_field_name` of csv_service_enhanced.py. -/
def normalizeFieldNameEnhanced (fieldName : String) : String :=
  normalizeFieldNameWith fieldMappingsEnhanced fieldName

/-! ## CSV record parsing (`csv.reader` with the default dialect)

The source always parses one record at a time (`next(csv.reader([line],
delimiter=...), [])`).  The state machine below follows CPython's
`_csv` parser for the default dialect (quote character `"`, doubled
quotes, no escape character, non-strict): a quote opens a quoted field
only at field start, a doubled quote inside a quoted field produces one
literal quote, and an unquoted newline or carriage return terminates the
record.  An empty line yields the empty record, as `csv` does. -/

inductive CSVState
  | startField
  | inField
  | inQuoted
  | quoteInQuoted

def csvRun (delim : Char) : CSVState → List String → List Char → List Char → List String
  | .startField, fields, acc, [] => fields ++ [⟨acc⟩]
  | .startField, fields, acc, c :: rest =>
    if c == '"' then csvRun delim .inQuoted fields acc rest
    else if c == delim then csvRun delim .startField (fields ++ [⟨acc⟩]) [] rest
    else if c == '\n' || c == '\r' then fields ++ [⟨acc⟩]
    else csvRun delim .inField fields (acc ++ [c]) rest
  | .inField, fields, acc, [] => fields ++ [⟨acc⟩]
  | .inField, fields, acc, c :: rest =>
    if c == delim then csvRun delim .startField (fields ++ [⟨acc⟩]) [] rest
    else if c == '\n' || c == '\r' then fields ++ [⟨acc⟩]
    else csvRun delim .inField fields (acc ++ [c]) rest
  | .inQuoted, fields, acc, [] => fields ++ [⟨acc⟩]
  | .inQuoted, fields, acc, c :: rest =>
    if c == '"' then csvRun delim .quoteInQuoted fields acc rest
    else csvRun delim .inQuoted fields (acc ++ [c]) rest
  | .quoteInQuoted, fields, acc, [] => fields ++ [⟨acc⟩]
  | .quoteInQuoted, fields, acc, c :: rest =>
    if c == '"' then csvRun delim .inQuoted fields (acc ++ [c]) rest
    else if c == delim then csvRun delim .startField (fields ++ [⟨acc⟩]) [] rest
    else if c == '\n' || c == '\r' then fields ++ [⟨acc⟩]
    else csvRun delim .inField fields (acc ++ [c]) rest

/-- The first record `csv.reader` produces from `s` (what
`next(reader, [])` returns); the empty input gives the empty record. -/
def csvFirstRecord (delim : Char) (s : String) : List String :=
  match s.data with
  | [] => []
  | c :: _ => if c == '\n' || c == '\r' then [] else csvRun delim .startField [] [] s.data

/-! ## Header locating (`CSVService.find_header_row`, csv_service_simple.py) -/

def requiredHeaders : List String := ["first name", "last name", "url"]

/-- The `[h.lower().strip() for h in row if h.strip()]` comprehension. -/
def cleanedHeaders (row : List String) : List String :=
  (row.filter fun h => !(pyStrip h == "")).map fun h => pyStrip (pyLower h)

/-- Whether one line of the file passes `find_header_row`'s header test:
non-blank, parses to a non-empty record, and either contains all the
required LinkedIn headers or matches the broader LinkedIn header pattern. -/
def headerQualifies (delim : Char) (line : String) : Bool :=
  if pyStrip line == "" then false
  else
    let row := csvFirstRecord delim line
    if row.isEmpty then false
    else
      let cleaned := cleanedHeaders row
      let hasRequired := requiredHeaders.all fun req => cleaned.any fun h => strContains h req
      let hasPattern :=
        decide (5 ≤ cleaned.length) &&
        (cleaned.any fun h => strContains h "first" && strContains h "name") &&
        (cleaned.any fun h => strContains h "last" && strContains h "name") &&
        (cleaned.any fun h => strContains h "url" || strContains h "profile")
      hasRequired || hasPattern

def findHeaderRowAux (delim : Char) : List String → Nat → Option (Nat × List String)
  | [], _ => none
  | line :: rest, i =>
    if headerQualifies delim line then some (i, csvFirstRecord delim line)
    else findHeaderRowAux delim rest (i + 1)

/-- The fallback scan of `find_header_row`: the first non-blank line whose
parse is a non-empty record. -/
def findFallbackRowAux (delim : Char) : List String → Nat → Option (Nat × List String)
  | [], _ => none
  | line :: rest, i =>
    if pyStrip line == "" then findFallbackRowAux delim rest (i + 1)
    else
      let row := csvFirstRecord delim line
      if row.isEmpty then findFallbackRowAux delim rest (i + 1) else some (i, row)

/-- `CSVService.find_header_row`; `none` stands for the `(-1, [])` return. -/
def findHeaderRow (lines : List String) (delim : Char) : Option (Nat × List String) :=
  match findHeaderRowAux delim lines 0 with
  | some r => some r
  | none => findFallbackRowAux delim lines 0

/-! ## Header locating (`CSVService.detect_metadata_rows`, csv_service_enhanced.py) -/

def linkedinHeaderTokens : List String :=
  ["first name", "last name", "url", "email address", "company", "position"]

/-- `sum(1 for header in linkedin_headers if any(header in cell for cell in cleaned_row))`. -/
def headerMatchCount (row : List String) : Nat :=
  (linkedinHeaderTokens.filter fun h => (cleanedHeaders row).any fun cell => strContains cell h).length

/-- Whether a line counts as the header row for `detect_metadata_rows`:
non-blank, non-empty record, at least 3 LinkedIn header tokens matched. -/
def enhancedHeaderLine (delim : Char) (line : String) : Bool :=
  if pyStrip line == "" then false
  else
    let row := csvFirstRecord delim line
    !row.isEmpty && decide (3 ≤ headerMatchCount row)

def detectHeaderScan (delim : Char) : List String → Nat → Option Nat
  | [], _ => none
  | line :: rest, i =>
    -- a metadata-looking line is merely logged and skipped in the source,
    -- which is the same control flow as any other non-header line
    if enhancedHeaderLine delim line then some i else detectHeaderScan delim rest (i + 1)

def firstNonBlankIndex : List String → Nat → Option Nat
  | [], _ => none
  | line :: rest, i =>
    if pyStrip line == "" then firstNonBlankIndex rest (i + 1) else some i

/-- `CSVService.detect_metadata_rows` (csv_service_enhanced.py): scan the
first 10 lines for a LinkedIn-like header, fall back to the first
non-blank line, and finally to 0. -/
def detectMetadataRows (lines : List String) (delim : Char) : Nat :=
  match detectHeaderScan delim (lines.take 10) 0 with
  | some i => i
  | none =>
    match firstNonBlankIndex lines 0 with
    | some i => i
    | none => 0

/-! ## Byte decoding (the encoding-fallback chain of `parse_csv_content`)

`content.decode('utf-8')`, then `'utf-8-sig'`, then `'latin-1'`; the
final `'cp1252'` branch of the source is unreachable because decoding as
latin-1 never raises. -/

/-- Strict UTF-8 decoding: rejects truncated sequences, continuation
errors, overlong forms, surrogates and out-of-range code points, exactly
the inputs Python's strict `decode('utf-8')` raises on. -/
def utf8Decode : List Nat → Option (List Char)
  | [] => some []
  | b :: rest =>
    if b < 0x80 then (utf8Decode rest).map fun t => Char.ofNat b :: t
    else if b < 0xC2 then none
    else if b ≤ 0xDF then
      match rest with
      | b1 :: r =>
        if 0x80 ≤ b1 ∧ b1 ≤ 0xBF then
          (utf8Decode r).map fun t => Char.ofNat ((b - 0xC0) * 64 + (b1 - 0x80)) :: t
        else none
      | [] => none
    else if b ≤ 0xEF then
      match rest with
      | b1 :: b2 :: r =>
        let lo1 := if b == 0xE0 then 0xA0 else 0x80
        let hi1 := if b == 0xED then 0x9F else 0xBF
        if lo1 ≤ b1 ∧ b1 ≤ hi1 ∧ 0x80 ≤ b2 ∧ b2 ≤ 0xBF then
          (utf8Decode r).map fun t =>
            Char.ofNat ((b - 0xE0) * 4096 + (b1 - 0x80) * 64 + (b2 - 0x80)) :: t
        else none
      | _ => none
    else if b ≤ 0xF4 then
      match rest with
      | b1 :: b2 :: b3 :: r =>
        let lo1 := if b == 0xF0 then 0x90 else 0x80
        let hi1 := if b == 0xF4 then 0x8F else 0xBF
        if lo1 ≤ b1 ∧ b1 ≤ hi1 ∧ 0x80 ≤ b2 ∧ b2 ≤ 0xBF ∧ 0x80 ≤ b3 ∧ b3 ≤ 0xBF then
          (utf8Decode r).map fun t =>
            Char.ofNat ((b - 0xF0) * 262144 + (b1 - 0x80) * 4096 + (b2 - 0x80) * 64 + (b3 - 0x80)) :: t
        else none
      | _ => none
    else none

def utf8ByteOrderMark : List Nat := [0xEF, 0xBB, 0xBF]

/-- The decoding chain of `parse_csv_content`. -/
def decodeContent (content : List Nat) : List Char :=
  match utf8Decode content with
  | some t => t
  | none =>
    match
      (if utf8ByteOrderMark.isPrefixOf content then utf8Decode (content.drop 3)
       else utf8Decode content) with
    | some t => t
    | none => content.map fun b => Char.ofNat b  -- latin-1: every byte decodes

/-! ## `CSVService.parse_csv_content` (csv_service_simple.py) -/

def numbersMsg : String :=
  "Numbers files (.numbers) are not supported. Please export your Numbers file as CSV first."

def excelMsg : String :=
  "Excel files are not yet supported. Please save your Excel file as CSV first."

def notCSVMsg : String := "File does not appear to be a valid CSV format"

def emptyCSVMsg : String := "Empty CSV file"

def noHeaderMsg : String := "No valid header row found in CSV file"

def zipSignature : List Nat := [0x50, 0x4B]

def compoundDocSignature : List Nat := [0xD0, 0xCF, 0x11, 0xE0]

def numbersBytes : List Nat := "Numbers".data.map Char.toNat

/-- The delimiter-selection loop of `parse_csv_content`: the first record
of the first 1000 characters is parsed with each candidate delimiter and
the candidate with the strictly largest field count wins (comma first). -/
def detectDelimiterSimple (text : String) : Char :=
  let sample : String := ⟨text.data.take 1000⟩
  (([',', ';', '\t'] : List Char).foldl
    (fun best d =>
      let firstRow := csvFirstRecord d sample
      if best.2 < firstRow.length then (d, firstRow.length) else best)
    (',', 0)).1

def nullWords : List String := ["", "null", "none", "n/a", "na"]

/-- The per-cell clean-up of the data-row loop: strip, then blank out the
null-ish placeholder words. -/
def cleanCell (v : String) : String :=
  if v == "" then v
  else
    let v' := pyStrip v
    if nullWords.contains (pyLower v') then "" else v'

/-- The `for j, (original_header, normalized_header) in enumerate(zip(...))`
loop building one normalized row plus its `has_data` flag. -/
def buildRow : List (String × String) → Nat → List String →
    List (String × String) → Bool → List (String × String) × Bool
  | [], _, _, d, hasData => (d, hasData)
  | (_, norm) :: rest, j, rowValues, d, hasData =>
    let value := cleanCell (rowValues.getD j "")
    buildRow rest (j + 1) rowValues (dictInsert d norm value) (hasData || !(value == ""))

/-- The data-row loop of `parse_csv_content`: skip blank lines and empty
records, clean cells, keep only rows with some data. -/
def parseDataLines (delim : Char) (headerRow normalizedFieldnames : List String)
    (dataLines : List String) : List (List (String × String)) :=
  dataLines.filterMap fun line =>
    if pyStrip line == "" then none
    else
      let rowValues := csvFirstRecord delim line
      if rowValues.isEmpty then none
      else
        let built := buildRow (headerRow.zip normalizedFieldnames) 0 rowValues [] false
        if built.2 then some built.1 else none

/-- The body of `parse_csv_content` after the byte-signature checks and
decoding: delimiter scoring, header locating, field normalization and the
data-row loop.  No branch of this body can raise, so the error list is
empty unless one of the explicit early returns fires. -/
def parseCSVText (text : String) : List (List (String × String)) × List String :=
  if !(strContains text "," || strContains text ";" || strContains text "\t") then
    ([], [notCSVMsg])
  else
    let lines := pySplitNewline (pyStrip text)
    if lines.isEmpty then ([], [emptyCSVMsg])
    else
      let bestDelimiter := detectDelimiterSimple text
      match findHeaderRow lines bestDelimiter with
      | none => ([], [noHeaderMsg])
      | some (headerIdx, headerRow) =>
        if headerRow.isEmpty then ([], [noHeaderMsg])
        else
          let normalizedFieldnames := headerRow.map normalizeFieldName
          let dataLines := lines.drop (headerIdx + 1)
          (parseDataLines bestDelimiter headerRow normalizedFieldnames dataLines, [])

/-- `CSVService.parse_csv_content` (csv_service_simple.py): byte-signature
checks, encoding fallback, then the CSV body. -/
def parseCSVContent (content : List Nat) : List (List (String × String)) × List String :=
  if zipSignature.isPrefixOf content || occursInList numbersBytes (content.take 100) then
    ([], [numbersMsg])
  else if zipSignature.isPrefixOf content || compoundDocSignature.isPrefixOf content then
    ([], [excelMsg])
  else
    parseCSVText ⟨decodeContent content⟩

/-! ## Data model (models.py) -/

inductive RelationshipStrength
  | weak
  | medium
  | strong
  deriving DecidableEq

inductive ContactDegree
  | first
  | second
  | third
  deriving DecidableEq

/-- A `datetime` value.  `datetime.utcnow()` is a wall-clock effect, so
the functions below take the clock readings as explicit arguments. -/
structure DateTime where
  year : Nat
  month : Nat
  day : Nat
  hour : Nat
  minute : Nat
  second : Nat
  deriving DecidableEq

def dtZero : DateTime := ⟨2024, 1, 1, 0, 0, 0⟩

/-- The fields of `models.Contact` that the CSV pipeline populates. -/
structure Contact where
  name : String
  email : Option String
  company : Option String
  title : Option String
  phone : Option String
  linkedinUrl : Option String
  degree : ContactDegree
  relationshipStrength : RelationshipStrength
  notes : String
  tags : List String
  addedAt : DateTime
  createdAt : DateTime
  updatedAt : DateTime
  deriving DecidableEq

/-! ## Field cleaning (csv_service_simple.py) -/

/-- `CSVService.clean_phone_number` (identical in csv_service_simple.py and
csv_service.py): `re.sub(r'[^\d+]', '', phone)` keeps every digit and every
plus sign, then the leading-plus branch returns the result unchanged and
the other branch strips leading plus signs. -/
def cleanPhoneNumber (phone : String) : String :=
  if phone == "" then ""
  else
    let cleaned : List Char := phone.data.filter fun c => c.isDigit || c == '+'
    if cleaned.head? == some '+' then ⟨cleaned⟩
    else ⟨cleaned.dropWhile fun c => c == '+'⟩

/-- `CSVService.clean_linkedin_url`. -/
def cleanLinkedinUrl (url : String) : String :=
  if url == "" then ""
  else
    let u := pyStrip url
    let u :=
      if !strStarts u "http" then
        if !strContains u "/" then "https://linkedin.com/in/" ++ u
        else "https://linkedin.com/" ++ (⟨u.data.dropWhile fun c => c == '/'⟩ : String)
      else u
    if !strContains (pyLower u) "linkedin.com" then "" else u

/-- `email.split('@')[0]`: the prefix of the address before its first `@`
(the whole string when there is no `@`). -/
def emailLocalPart (email : String) : String :=
  ⟨email.data.takeWhile fun c => !(c == '@')⟩

/-- `CSVService.parse_name` (csv_service_simple.py): explicit full name,
else first+last, else company placeholder, else title-cased email local
part, else the fixed placeholder. -/
def parseName (row : List (String × String)) : String :=
  if !(dictGet row "name" == "") then pyStrip (dictGet row "name")
  else
    let firstName := pyStrip (dictGet row "first_name")
    let lastName := pyStrip (dictGet row "last_name")
    if !(firstName == "") && !(lastName == "") then firstName ++ " " ++ lastName
    else if !(firstName == "") then firstName
    else if !(lastName == "") then lastName
    else
      let company := pyStrip (dictGet row "company")
      if !(company == "") then "Contact at " ++ company
      else
        let email := pyStrip (dictGet row "email")
        if !(email == "") then
          pyTitle ⟨replChar '_' ' ' (replChar '.' ' ' (emailLocalPart email).data)⟩
        else "Unknown Contact"

/-- `CSVService.determine_relationship_strength` (the function body is
identical in csv_service_simple.py, csv_service_enhanced.py and
csv_service.py): email is tested first, then phone, then notes. -/
def determineRelationshipStrength (row : List (String × String)) : RelationshipStrength :=
  if !(dictGet row "email" == "") then .medium
  else if !(dictGet row "phone" == "") then .strong
  else if !(dictGet row "notes" == "") then .medium
  else .weak

/-! ## Connection-date parsing (`CSVService.parse_connected_date`)

`datetime.strptime` against `"%d %b %Y"`, then `"%Y-%m-%d"`, then
`"%m/%d/%Y"`; literal whitespace in a format matches a run of whitespace,
`%d`/`%m` match one or two digits (preferring two when the two-digit value
is in range), `%b` matches a month abbreviation case-insensitively, `%Y`
matches exactly four digits, and the whole string must be consumed; the
resulting date must be a real calendar date. -/

def digitVal (c : Char) : Nat := c.toNat - 48

/-- Match `%d`/`%m`: one or two digits with the two-digit value bounded by
`maxTwo` (31 for days, 12 for months); the regex alternation prefers the
two-digit match.  Returns the value and the remaining characters. -/
def parseOneOrTwoDigits (maxTwo : Nat) : List Char → Option (Nat × List Char)
  | a :: b :: r =>
    if a.isDigit && b.isDigit then
      let v := digitVal a * 10 + digitVal b
      if 1 ≤ v ∧ v ≤ maxTwo then some (v, r)
      else if 1 ≤ digitVal a then some (digitVal a, b :: r) else none
    else if a.isDigit && 1 ≤ digitVal a then some (digitVal a, b :: r)
    else none
  | [a] => if a.isDigit && 1 ≤ digitVal a then some (digitVal a, []) else none
  | [] => none

/-- Match `%Y`: exactly four digits. -/
def parseYear4 : List Char → Option (Nat × List Char)
  | a :: b :: c :: d :: r =>
    if a.isDigit && b.isDigit && c.isDigit && d.isDigit then
      some (digitVal a * 1000 + digitVal b * 100 + digitVal c * 10 + digitVal d, r)
    else none
  | _ => none

def monthAbbrevTable : List (String × Nat) :=
  [("jan", 1), ("feb", 2), ("mar", 3), ("apr", 4), ("may", 5), ("jun", 6),
   ("jul", 7), ("aug", 8), ("sep", 9), ("oct", 10), ("nov", 11), ("dec", 12)]

/-- Match `%b`: a three-letter month abbreviation, case-insensitively. -/
def parseMonthAbbrev : List Char → Option (Nat × List Char)
  | a :: b :: c :: r =>
    match monthAbbrevTable.lookup ⟨[a.toLower, b.toLower, c.toLower]⟩ with
    | some m => some (m, r)
    | none => none
  | _ => none

/-- Match a literal whitespace of the format (a run of whitespace). -/
def parseSpaces : List Char → Option (List Char)
  | c :: r => if pyIsSpace c then some (r.dropWhile pyIsSpace) else none
  | [] => none

def isLeapYear (y : Nat) : Bool :=
  (y % 4 == 0 && !(y % 100 == 0)) || y % 400 == 0

def daysInMonth (y m : Nat) : Nat :=
  if m == 2 then (if isLeapYear y then 29 else 28)
  else if m == 4 || m == 6 || m == 9 || m == 11 then 30
  else 31

/-- The `datetime(year, month, day)` constructor's validity conditions. -/
def mkDate (y m d : Nat) : Option DateTime :=
  if 1 ≤ y ∧ 1 ≤ d ∧ d ≤ daysInMonth y m then some ⟨y, m, d, 0, 0, 0⟩ else none

/-- `datetime.strptime(s, "%d %b %Y")`. -/
def strptimeDayMonYear (s : String) : Option DateTime :=
  match parseOneOrTwoDigits 31 s.data with
  | none => none
  | some (d, r1) =>
    match parseSpaces r1 with
    | none => none
    | some r2 =>
      match parseMonthAbbrev r2 with
      | none => none
      | some (m, r3) =>
        match parseSpaces r3 with
        | none => none
        | some r4 =>
          match parseYear4 r4 with
          | some (y, []) => mkDate y m d
          | _ => none

/-- `datetime.strptime(s, "%Y-%m-%d")`. -/
def strptimeIso (s : String) : Option DateTime :=
  match parseYear4 s.data with
  | none => none
  | some (y, r1) =>
    match r1 with
    | '-' :: r2 =>
      match parseOneOrTwoDigits 12 r2 with
      | none => none
      | some (m, r3) =>
        match r3 with
        | '-' :: r4 =>
          match parseOneOrTwoDigits 31 r4 with
          | some (d, []) => mkDate y m d
          | _ => none
        | _ => none
    | _ => none

/-- `datetime.strptime(s, "%m/%d/%Y")`. -/
def strptimeUS (s : String) : Option DateTime :=
  match parseOneOrTwoDigits 12 s.data with
  | none => none
  | some (m, r1) =>
    match r1 with
    | '/' :: r2 =>
      match parseOneOrTwoDigits 31 r2 with
      | none => none
      | some (d, r3) =>
        match r3 with
        | '/' :: r4 =>
          match parseYear4 r4 with
          | some (y, []) => mkDate y m d
          | _ => none
        | _ => none
    | _ => none

/-- `CSVService.parse_connected_date` (csv_service_simple.py); `now` is the
`datetime.utcnow()` reading used when nothing parses. -/
def parseConnectedDate (dateStr : String) (now : DateTime) : DateTime :=
  if dateStr == "" then now
  else
    match strptimeDayMonYear (pyStrip dateStr) with
    | some d => d
    | none =>
      match strptimeIso (pyStrip dateStr) with
      | some d => d
      | none =>
        match strptimeUS (pyStrip dateStr) with
        | some d => d
        | none => now

/-- `connected_date.strftime('%d %b %Y')`. -/
def monthAbbrevCap (m : Nat) : String :=
  match m with
  | 1 => "Jan" | 2 => "Feb" | 3 => "Mar" | 4 => "Apr" | 5 => "May" | 6 => "Jun"
  | 7 => "Jul" | 8 => "Aug" | 9 => "Sep" | 10 => "Oct" | 11 => "Nov" | 12 => "Dec"
  | _ => ""

def padNat (width n : Nat) : String :=
  let digits := Nat.repr n
  ⟨List.replicate (width - digits.length) '0' ++ digits.data⟩

def strftimeDayMonYear (d : DateTime) : String :=
  padNat 2 d.day ++ " " ++ monthAbbrevCap d.month ++ " " ++ padNat 4 d.year

/-! ## Row validation and mapping (csv_service_simple.py) -/

/-- `CSVService.is_valid_contact_row`: at least one of trimmed first name,
last name, company, email or profile URL is non-empty.  The enhanced
variant computes the same disjunction. -/
def isValidContactRow (row : List (String × String)) : Bool :=
  let firstName := pyStrip (dictGet row "first_name")
  let lastName := pyStrip (dictGet row "last_name")
  let company := pyStrip (dictGet row "company")
  let email := pyStrip (dictGet row "email")
  let profileUrl := pyStrip (dictGet row "profile_url")
  !(firstName == "") || !(lastName == "") || !(company == "") ||
    !(email == "") || !(profileUrl == "")

def missingEmailNote : String := "Email missing from LinkedIn export"

/-- `CSVService.row_to_contact` (csv_service_simple.py).  `nowParse` is the
`datetime.utcnow()` reading taken inside `parse_connected_date` and
`nowCreate` the later `current_time = datetime.utcnow()` reading; no
expression of the body can raise, so the `except` arm is unreachable. -/
def rowToContact (row : List (String × String)) (rowIndex : Nat)
    (nowParse nowCreate : DateTime) : Option Contact × List String :=
  if !isValidContactRow row then
    (none, ["Row " ++ Nat.repr rowIndex ++ ": Missing First Name or Last Name - skipping"])
  else
    let name := parseName row
    let emailStr := pyStrip (dictGet row "email")
    let email : Option String := if emailStr == "" then none else some emailStr
    let company := pyStrip (dictGet row "company")
    let title := pyStrip (dictGet row "title")
    let phone := cleanPhoneNumber (dictGet row "phone")
    let linkedinUrl := cleanLinkedinUrl (dictGet row "profile_url")
    let notes := pyStrip (dictGet row "notes")
    let notes :=
      if email.isNone then
        if !(notes == "") then pyStrip (missingEmailNote ++ "\n" ++ notes) else missingEmailNote
      else notes
    let connectedDate : Option DateTime :=
      if !(dictGet row "connected_on" == "") then
        some (parseConnectedDate (dictGet row "connected_on") nowParse)
      else none
    let relationshipStrength := determineRelationshipStrength row
    let currentTime := nowCreate
    let addedAt := match connectedDate with | some d => d | none => currentTime
    let notes :=
      match connectedDate with
      | some d =>
        if !(d = currentTime) then
          let dateNote := "Connected on LinkedIn: " ++ strftimeDayMonYear d
          if !(notes == "") then pyStrip (dateNote ++ "\n" ++ notes) else dateNote
        else notes
      | none => notes
    (some {
        name := name
        email := email
        company := if company == "" then none else some company
        title := if title == "" then none else some title
        phone := if phone == "" then none else some phone
        linkedinUrl := if linkedinUrl == "" then none else some linkedinUrl
        degree := .first
        relationshipStrength := relationshipStrength
        notes := notes
        tags := ["csv-import", "linkedin-export"]
        addedAt := addedAt
        createdAt := currentTime
        updatedAt := currentTime }, [])

/-! ## Chunked processing (`CSVService.process_csv_file_async`, csv_service_simple.py)

The wall clock enters only through the boolean test
`time.time() - start_time > timeout_seconds`, evaluated once before each
chunk; that sequence of readings is passed in as `timedOut : Nat → Bool`
(the value of the test before the k-th chunk).  The `asyncio.wait_for`
around the parsing stage can also expire; that reading is the
`parseTimedOut` flag.  Every return of the Python function is a normal
return—the embedding is a total function, matching the source's policy of
never raising to the caller. -/

def chunkSize : Nat := 1000

def timeoutChunkMsg (timeoutSeconds numContacts totalRows : Nat) : String :=
  "Processing timed out after " ++ Nat.repr timeoutSeconds ++
    " seconds. Processed " ++ Nat.repr numContacts ++ " of " ++
    Nat.repr totalRows ++ " rows."

def parseTimeoutMsg (timeoutSeconds : Nat) : String :=
  "CSV processing timed out after " ++ Nat.repr timeoutSeconds ++
    " seconds. Please try with a smaller file or contact support."

def noValidContactsMsg : String := "No valid contacts found."

/-- The inner per-chunk loop: `row_to_contact` on each row with its 1-based
global index, collecting contacts and extending the error list. -/
def processChunkRows (nowParse nowCreate : DateTime) :
    List (List (String × String)) → Nat → List Contact × List String
  | [], _ => ([], [])
  | row :: rest, i =>
    let step := rowToContact row i nowParse nowCreate
    let tail := processChunkRows nowParse nowCreate rest (i + 1)
    (match step.1 with
     | some contact => contact :: tail.1
     | none => tail.1,
     step.2 ++ tail.2)

/-- The `for chunk_start in range(0, total_rows, chunk_size)` loop:
before each chunk the timeout test runs; on expiry the loop breaks after
appending the timeout diagnostic, otherwise the chunk's rows are
processed and accumulated.  The loop consumes at least one row per
iteration, so it is driven by a fuel argument bounding the number of
chunks; the caller passes the row count as fuel, which makes the
fuel-exhausted arm unreachable. -/
def processLoop (nowParse nowCreate : DateTime) (timeoutSeconds : Nat)
    (timedOut : Nat → Bool) (totalRows : Nat) :
    Nat → List (List (String × String)) → Nat → Nat → List Contact → List String →
    List Contact × List String
  | _, [], _, _, contacts, errors => (contacts, errors)
  | 0, _ :: _, _, _, contacts, errors => (contacts, errors)
  | fuel + 1, row :: rest, k, i, contacts, errors =>
    if timedOut k then
      (contacts, errors ++ [timeoutChunkMsg timeoutSeconds contacts.length totalRows])
    else
      let chunk := (row :: rest).take chunkSize
      let remaining := (row :: rest).drop chunkSize
      let processed := processChunkRows nowParse nowCreate chunk i
      processLoop nowParse nowCreate timeoutSeconds timedOut totalRows fuel remaining
        (k + 1) (i + chunk.length) (contacts ++ processed.1) (errors ++ processed.2)

/-- `CSVService.process_csv_file_async` (csv_service_simple.py).  In the
empty-`rows` branch the source builds a header-debugging message but then
returns `parse_errors or [error_msg]`, so the augmented message is used
only when `parse_errors` is empty—in which case it was never augmented. -/
def processCSVFileAsync (content : List Nat) (timeoutSeconds : Nat)
    (parseTimedOut : Bool) (timedOut : Nat → Bool)
    (nowParse nowCreate : DateTime) : List Contact × Nat × List String :=
  if parseTimedOut then ([], 0, [parseTimeoutMsg timeoutSeconds])
  else
    let parsed := parseCSVContent content
    let rows := parsed.1
    let parseErrors := parsed.2
    if rows.isEmpty then
      ([], 0, if parseErrors.isEmpty then [noValidContactsMsg] else parseErrors)
    else
      let totalRows := rows.length
      let run := processLoop nowParse nowCreate timeoutSeconds timedOut totalRows
        rows.length rows 0 1 [] parseErrors
      let contacts := run.1
      let allErrors :=
        if contacts.isEmpty then
          run.2 ++ ["No valid contacts found. Detected headers: " ++
            String.intercalate ", " (dictKeys (rows.headD []))]
        else run.2
      (contacts, totalRows, allErrors)

/-! ## Deduplication (`CSVService.validate_contacts`)

The function body is identical in csv_service_simple.py,
csv_service_enhanced.py and csv_service.py.  The two `seen` sets are
modelled as lists consulted only through membership. -/

/-- Python truthiness of an optional string field. -/
def optTruthy : Option String → Bool
  | none => false
  | some s => !(s == "")

def optVal : Option String → String
  | none => ""
  | some s => s

def dupEmailMsg (c : Contact) : String := "Duplicate email found: " ++ optVal c.email

def dupUrlMsg (c : Contact) : String := "Duplicate LinkedIn URL found: " ++ optVal c.linkedinUrl

/-- The loop of `validate_contacts`.  When a contact's e-mail passes the
duplicate test, the lower-cased e-mail is added to the seen set before the
URL test runs, so a contact dropped for a duplicate URL still contributes
its e-mail to the seen set. -/
def validateAux (seenEmails seenUrls : List String) : List Contact → List Contact × List String
  | [] => ([], [])
  | contact :: rest =>
    if optTruthy contact.email then
      let e := pyLower (optVal contact.email)
      if seenEmails.contains e then
        let r := validateAux seenEmails seenUrls rest
        (r.1, dupEmailMsg contact :: r.2)
      else
        let seenEmails := e :: seenEmails
        if optTruthy contact.linkedinUrl then
          let u := pyLower (optVal contact.linkedinUrl)
          if seenUrls.contains u then
            let r := validateAux seenEmails seenUrls rest
            (r.1, dupUrlMsg contact :: r.2)
          else
            let r := validateAux seenEmails (u :: seenUrls) rest
            (contact :: r.1, r.2)
        else
          let r := validateAux seenEmails seenUrls rest
          (contact :: r.1, r.2)
    else
      if optTruthy contact.linkedinUrl then
        let u := pyLower (optVal contact.linkedinUrl)
        if seenUrls.contains u then
          let r := validateAux seenEmails seenUrls rest
          (r.1, dupUrlMsg contact :: r.2)
        else
          let r := validateAux seenEmails (u :: seenUrls) rest
          (contact :: r.1, r.2)
      else
        let r := validateAux seenEmails seenUrls rest
        (contact :: r.1, r.2)

/-- `CSVService.validate_contacts`. -/
def validateContacts (contacts : List Contact) : List Contact × List String :=
  validateAux [] [] contacts

/-- A row as produced by the normalization stage: every stored value is
already stripped (`parse_csv_content` strips each cell before storing it). -/
def rowNormalized (row : List (String × String)) : Bool :=
  row.all fun kv => pyStrip kv.2 == kv.2

/-! ## Helper lemmas -/

theorem string_eq_empty_iff (s : String) : s = "" ↔ s.data = [] := by
  constructor
  · intro h
    subst h
    rfl
  · intro h
    apply String.ext
    simpa using h

theorem dictGet_normalized {row : List (String × String)} (h : rowNormalized row = true)
    (k : String) : pyStrip (dictGet row k) = dictGet row k := by
  induction row with
  | nil => rfl
  | cons kv rest ih =>
    obtain ⟨a, b⟩ := kv
    simp only [rowNormalized, List.all_cons, Bool.and_eq_true, beq_iff_eq] at h
    cases hk : k == a with
    | true => simpa [dictGet, List.lookup, hk] using h.1
    | false =>
      have hrec := ih (show rowNormalized rest = true from h.2)
      simpa [dictGet, List.lookup, hk] using hrec

/-! ## Claim C1: relationship-strength heuristic -/

/-- A normalized row carrying both a phone number and an e-mail address. -/
def rowPhoneAndEmail : List (String × String) :=
  [("phone", "5551234567"), ("email", "ada@example.com")]

/-- C1 counterexample: the claim says a row with a phone value yields
`strong` with phone checked before the other signals, so a row with both a
phone and an e-mail would be `strong`; `determine_relationship_strength`
tests the e-mail first and returns `medium` on such a row. -/
theorem claim_C1_counterexample :
    rowNormalized rowPhoneAndEmail = true ∧
    determineRelationshipStrength rowPhoneAndEmail = RelationshipStrength.medium ∧
    determineRelationshipStrength rowPhoneAndEmail ≠ RelationshipStrength.strong := by
  decide

/-- C1 (amended): `determine_relationship_strength` checks e-mail first:
presence of e-mail gives `medium`; otherwise presence of phone gives
`strong`; otherwise presence of notes gives `medium`; otherwise `weak`.
In particular a row with both a phone and an e-mail yields `medium`. -/
theorem claim_C1_email_checked_first (row : List (String × String)) :
    (dictGet row "email" ≠ "" → determineRelationshipStrength row = RelationshipStrength.medium) ∧
    (dictGet row "email" = "" → dictGet row "phone" ≠ "" →
      determineRelationshipStrength row = RelationshipStrength.strong) ∧
    (dictGet row "email" = "" → dictGet row "phone" = "" → dictGet row "notes" ≠ "" →
      determineRelationshipStrength row = RelationshipStrength.medium) ∧
    (dictGet row "email" = "" → dictGet row "phone" = "" → dictGet row "notes" = "" →
      determineRelationshipStrength row = RelationshipStrength.weak) ∧
    (dictGet row "phone" ≠ "" → dictGet row "email" ≠ "" →
      determineRelationshipStrength row = RelationshipStrength.medium) := by
  unfold determineRelationshipStrength
  refine ⟨?_, ?_, ?_, ?_, ?_⟩ <;> intros <;> simp_all

/-- C1 witness: the amended theorem applied to a phone-only row. -/
theorem claim_C1_witness :
    determineRelationshipStrength [("phone", "5551234567")] = RelationshipStrength.strong :=
  (claim_C1_email_checked_first [("phone", "5551234567")]).2.1 (by decide) (by decide)

/-! ## Claim C2: deduplication in validate_contacts -/

/-- Shorthand for building the contacts the Deduplicator inspects. -/
def mkContact (name : String) (email linkedinUrl : Option String) : Contact :=
  { name := name, email := email, company := none, title := none, phone := none,
    linkedinUrl := linkedinUrl, degree := .first,
    relationshipStrength := .weak, notes := "", tags := [],
    addedAt := dtZero, createdAt := dtZero, updatedAt := dtZero }

def contactA : Contact := mkContact "A" (some "a@x.com") (some "https://linkedin.com/in/u1")

def contactB : Contact := mkContact "B" (some "b@x.com") (some "https://linkedin.com/in/u1")

def contactC : Contact := mkContact "C" (some "b@x.com") (some "https://linkedin.com/in/u3")

/-- C2 counterexample: candidate B is dropped for a duplicate profile URL,
but its e-mail was already added to the seen set, so candidate C—whose
e-mail matches no kept candidate and whose URL is unique—is dropped as a
duplicate e-mail.  Under the claim, C would have been kept (the result
would be `[A, C]` with one diagnostic). -/
theorem claim_C2_counterexample :
    (validateContacts [contactA, contactB, contactC]).1 = [contactA] ∧
    (validateContacts [contactA, contactB, contactC]).2 =
      ["Duplicate LinkedIn URL found: https://linkedin.com/in/u1",
       "Duplicate email found: b@x.com"] := by
  decide

/-- The lower-cased e-mail key a contact contributes to deduplication,
`none` when the e-mail field is falsy. -/
def emailKey (c : Contact) : Option String :=
  if optTruthy c.email then some (pyLower (optVal c.email)) else none

/-- The lower-cased profile-URL key, `none` when the field is falsy. -/
def urlKey (c : Contact) : Option String :=
  if optTruthy c.linkedinUrl then some (pyLower (optVal c.linkedinUrl)) else none

theorem not_mem_cons_tail {x a : String} {l : List String} (h : x ∉ a :: l) : x ∉ l :=
  fun hm => h (List.mem_cons_of_mem a hm)

theorem not_mem_cons_head {x a : String} {l : List String} (h : x ∉ a :: l) : x ≠ a := by
  intro he
  subst he
  exact h (List.mem_cons_self x l)

theorem validateAux_sublist : ∀ (cs : List Contact) (se su : List String),
    (validateAux se su cs).1.Sublist cs
  | [], se, su => by simp [validateAux]
  | c :: rest, se, su => by
    by_cases h1 : optTruthy c.email
    · by_cases h2 : pyLower (optVal c.email) ∈ se
      · simpa [validateAux, h1, h2] using
          List.Sublist.cons c (validateAux_sublist rest se su)
      · by_cases h3 : optTruthy c.linkedinUrl
        · by_cases h4 : pyLower (optVal c.linkedinUrl) ∈ su
          · simpa [validateAux, h1, h2, h3, h4] using
              List.Sublist.cons c
                (validateAux_sublist rest (pyLower (optVal c.email) :: se) su)
          · simpa [validateAux, h1, h2, h3, h4] using
              List.Sublist.cons₂ c
                (validateAux_sublist rest (pyLower (optVal c.email) :: se)
                  (pyLower (optVal c.linkedinUrl) :: su))
        · simpa [validateAux, h1, h2, h3] using
            List.Sublist.cons₂ c
              (validateAux_sublist rest (pyLower (optVal c.email) :: se) su)
    · by_cases h3 : optTruthy c.linkedinUrl
      · by_cases h4 : pyLower (optVal c.linkedinUrl) ∈ su
        · simpa [validateAux, h1, h3, h4] using
            List.Sublist.cons c (validateAux_sublist rest se su)
        · simpa [validateAux, h1, h3, h4] using
            List.Sublist.cons₂ c
              (validateAux_sublist rest se (pyLower (optVal c.linkedinUrl) :: su))
      · simpa [validateAux, h1, h3] using
          List.Sublist.cons₂ c (validateAux_sublist rest se su)

theorem validateAux_length : ∀ (cs : List Contact) (se su : List String),
    cs.length = (validateAux se su cs).1.length + (validateAux se su cs).2.length
  | [], se, su => by simp [validateAux]
  | c :: rest, se, su => by
    by_cases h1 : optTruthy c.email
    · by_cases h2 : pyLower (optVal c.email) ∈ se
      · have ih := validateAux_length rest se su
        simp [validateAux, h1, h2]
        omega
      · by_cases h3 : optTruthy c.linkedinUrl
        · by_cases h4 : pyLower (optVal c.linkedinUrl) ∈ su
          · have ih := validateAux_length rest (pyLower (optVal c.email) :: se) su
            simp [validateAux, h1, h2, h3, h4]
            omega
          · have ih := validateAux_length rest (pyLower (optVal c.email) :: se)
              (pyLower (optVal c.linkedinUrl) :: su)
            simp [validateAux, h1, h2, h3, h4]
            omega
        · have ih := validateAux_length rest (pyLower (optVal c.email) :: se) su
          simp [validateAux, h1, h2, h3]
          omega
    · by_cases h3 : optTruthy c.linkedinUrl
      · by_cases h4 : pyLower (optVal c.linkedinUrl) ∈ su
        · have ih := validateAux_length rest se su
          simp [validateAux, h1, h3, h4]
          omega
        · have ih := validateAux_length rest se (pyLower (optVal c.linkedinUrl) :: su)
          simp [validateAux, h1, h3, h4]
          omega
      · have ih := validateAux_length rest se su
        simp [validateAux, h1, h3]
        omega

/-- Every kept contact's e-mail key was absent from the seen set the run
started from. -/
theorem validateAux_kept_email : ∀ (cs : List Contact) (se su : List String)
    (c : Contact), c ∈ (validateAux se su cs).1 → ∀ e, emailKey c = some e → e ∉ se
  | [], se, su => by simp [validateAux]
  | c0 :: rest, se, su => by
    intro c hmem e hkey
    by_cases h1 : optTruthy c0.email
    · by_cases h2 : pyLower (optVal c0.email) ∈ se
      · simp only [validateAux] at hmem
        simp [h1, h2] at hmem
        exact validateAux_kept_email rest se su c hmem e hkey
      · by_cases h3 : optTruthy c0.linkedinUrl
        · by_cases h4 : pyLower (optVal c0.linkedinUrl) ∈ su
          · simp only [validateAux] at hmem
            simp [h1, h2, h3, h4] at hmem
            exact not_mem_cons_tail
              (validateAux_kept_email rest _ su c hmem e hkey)
          · simp only [validateAux] at hmem
            simp [h1, h2, h3, h4] at hmem
            rcases hmem with hc | hc
            · subst hc
              simp [emailKey, h1] at hkey
              exact hkey ▸ h2
            · exact not_mem_cons_tail
                (validateAux_kept_email rest _ _ c hc e hkey)
        · simp only [validateAux] at hmem
          simp [h1, h2, h3] at hmem
          rcases hmem with hc | hc
          · subst hc
            simp [emailKey, h1] at hkey
            exact hkey ▸ h2
          · exact not_mem_cons_tail
              (validateAux_kept_email rest _ su c hc e hkey)
    · by_cases h3 : optTruthy c0.linkedinUrl
      · by_cases h4 : pyLower (optVal c0.linkedinUrl) ∈ su
        · simp only [validateAux] at hmem
          simp [h1, h3, h4] at hmem
          exact validateAux_kept_email rest se su c hmem e hkey
        · simp only [validateAux] at hmem
          simp [h1, h3, h4] at hmem
          rcases hmem with hc | hc
          · subst hc
            simp [emailKey, h1] at hkey
          · exact validateAux_kept_email rest se _ c hc e hkey
      · simp only [validateAux] at hmem
        simp [h1, h3] at hmem
        rcases hmem with hc | hc
        · subst hc
          simp [emailKey, h1] at hkey
        · exact validateAux_kept_email rest se su c hc e hkey

/-- Every kept contact's URL key was absent from the seen set the run
started from. -/
theorem validateAux_kept_url : ∀ (cs : List Contact) (se su : List String)
    (c : Contact), c ∈ (validateAux se su cs).1 → ∀ u, urlKey c = some u → u ∉ su
  | [], se, su => by simp [validateAux]
  | c0 :: rest, se, su => by
    intro c hmem u hkey
    by_cases h1 : optTruthy c0.email
    · by_cases h2 : pyLower (optVal c0.email) ∈ se
      · simp only [validateAux] at hmem
        simp [h1, h2] at hmem
        exact validateAux_kept_url rest se su c hmem u hkey
      · by_cases h3 : optTruthy c0.linkedinUrl
        · by_cases h4 : pyLower (optVal c0.linkedinUrl) ∈ su
          · simp only [validateAux] at hmem
            simp [h1, h2, h3, h4] at hmem
            exact validateAux_kept_url rest _ su c hmem u hkey
          · simp only [validateAux] at hmem
            simp [h1, h2, h3, h4] at hmem
            rcases hmem with hc | hc
            · subst hc
              simp [urlKey, h3] at hkey
              exact hkey ▸ h4
            · exact not_mem_cons_tail
                (validateAux_kept_url rest _ _ c hc u hkey)
        · simp only [validateAux] at hmem
          simp [h1, h2, h3] at hmem
          rcases hmem with hc | hc
          · subst hc
            simp [urlKey, h3] at hkey
          · exact validateAux_kept_url rest _ su c hc u hkey
    · by_cases h3 : optTruthy c0.linkedinUrl
      · by_cases h4 : pyLower (optVal c0.linkedinUrl) ∈ su
        · simp only [validateAux] at hmem
          simp [h1, h3, h4] at hmem
          exact validateAux_kept_url rest se su c hmem u hkey
        · simp only [validateAux] at hmem
          simp [h1, h3, h4] at hmem
          rcases hmem with hc | hc
          · subst hc
            simp [urlKey, h3] at hkey
            exact hkey ▸ h4
          · exact not_mem_cons_tail
              (validateAux_kept_url rest se _ c hc u hkey)
      · simp only [validateAux] at hmem
        simp [h1, h3] at hmem
        rcases hmem with hc | hc
        · subst hc
          simp [urlKey, h3] at hkey
        · exact validateAux_kept_url rest se su c hc u hkey

/-- Kept contacts have pairwise-distinct (present) e-mail keys. -/
theorem validateAux_pairwise_email : ∀ (cs : List Contact) (se su : List String),
    (validateAux se su cs).1.Pairwise fun a b => emailKey a = none ∨ emailKey a ≠ emailKey b
  | [], se, su => by simp [validateAux]
  | c :: rest, se, su => by
    by_cases h1 : optTruthy c.email
    · by_cases h2 : pyLower (optVal c.email) ∈ se
      · simpa [validateAux, h1, h2] using validateAux_pairwise_email rest se su
      · by_cases h3 : optTruthy c.linkedinUrl
        · by_cases h4 : pyLower (optVal c.linkedinUrl) ∈ su
          · simpa [validateAux, h1, h2, h3, h4] using
              validateAux_pairwise_email rest (pyLower (optVal c.email) :: se) su
          · have hpair := validateAux_pairwise_email rest
              (pyLower (optVal c.email) :: se) (pyLower (optVal c.linkedinUrl) :: su)
            simp only [validateAux]
            simp [h1, h2, h3, h4, List.pairwise_cons]
            refine ⟨?_, hpair⟩
            intro b hb
            right
            intro hkeq
            have hec : emailKey c = some (pyLower (optVal c.email)) := by
              simp [emailKey, h1]
            have heb : emailKey b = some (pyLower (optVal c.email)) := by
              rw [← hkeq, hec]
            exact validateAux_kept_email rest _ _ b hb _ heb
              (List.mem_cons_self _ _)
        · have hpair := validateAux_pairwise_email rest
            (pyLower (optVal c.email) :: se) su
          simp only [validateAux]
          simp [h1, h2, h3, List.pairwise_cons]
          refine ⟨?_, hpair⟩
          intro b hb
          right
          intro hkeq
          have hec : emailKey c = some (pyLower (optVal c.email)) := by
            simp [emailKey, h1]
          have heb : emailKey b = some (pyLower (optVal c.email)) := by
            rw [← hkeq, hec]
          exact validateAux_kept_email rest _ su b hb _ heb
            (List.mem_cons_self _ _)
    · by_cases h3 : optTruthy c.linkedinUrl
      · by_cases h4 : pyLower (optVal c.linkedinUrl) ∈ su
        · simpa [validateAux, h1, h3, h4] using validateAux_pairwise_email rest se su
        · have hpair := validateAux_pairwise_email rest se
            (pyLower (optVal c.linkedinUrl) :: su)
          simp only [validateAux]
          simp [h1, h3, h4, List.pairwise_cons]
          refine ⟨?_, hpair⟩
          intro b hb
          left
          simp [emailKey, h1]
      · have hpair := validateAux_pairwise_email rest se su
        simp only [validateAux]
        simp [h1, h3, List.pairwise_cons]
        refine ⟨?_, hpair⟩
        intro b hb
        left
        simp [emailKey, h1]

/-- Kept contacts have pairwise-distinct (present) URL keys. -/
theorem validateAux_pairwise_url : ∀ (cs : List Contact) (se su : List String),
    (validateAux se su cs).1.Pairwise fun a b => urlKey a = none ∨ urlKey a ≠ urlKey b
  | [], se, su => by simp [validateAux]
  | c :: rest, se, su => by
    by_cases h1 : optTruthy c.email
    · by_cases h2 : pyLower (optVal c.email) ∈ se
      · simpa [validateAux, h1, h2] using validateAux_pairwise_url rest se su
      · by_cases h3 : optTruthy c.linkedinUrl
        · by_cases h4 : pyLower (optVal c.linkedinUrl) ∈ su
          · simpa [validateAux, h1, h2, h3, h4] using
              validateAux_pairwise_url rest (pyLower (optVal c.email) :: se) su
          · have hpair := validateAux_pairwise_url rest
              (pyLower (optVal c.email) :: se) (pyLower (optVal c.linkedinUrl) :: su)
            simp only [validateAux]
            simp [h1, h2, h3, h4, List.pairwise_cons]
            refine ⟨?_, hpair⟩
            intro b hb
            right
            intro hkeq
            have huc : urlKey c = some (pyLower (optVal c.linkedinUrl)) := by
              simp [urlKey, h3]
            have hub : urlKey b = some (pyLower (optVal c.linkedinUrl)) := by
              rw [← hkeq, huc]
            exact validateAux_kept_url rest _ _ b hb _ hub
              (List.mem_cons_self _ _)
        · have hpair := validateAux_pairwise_url rest
            (pyLower (optVal c.email) :: se) su
          simp only [validateAux]
          simp [h1, h2, h3, List.pairwise_cons]
          refine ⟨?_, hpair⟩
          intro b hb
          left
          simp [urlKey, h3]
    · by_cases h3 : optTruthy c.linkedinUrl
      · by_cases h4 : pyLower (optVal c.linkedinUrl) ∈ su
        · simpa [validateAux, h1, h3, h4] using validateAux_pairwise_url rest se su
        · have hpair := validateAux_pairwise_url rest se
            (pyLower (optVal c.linkedinUrl) :: su)
          simp only [validateAux]
          simp [h1, h3, h4, List.pairwise_cons]
          refine ⟨?_, hpair⟩
          intro b hb
          right
          intro hkeq
          have huc : urlKey c = some (pyLower (optVal c.linkedinUrl)) := by
            simp [urlKey, h3]
          have hub : urlKey b = some (pyLower (optVal c.linkedinUrl)) := by
            rw [← hkeq, huc]
          exact validateAux_kept_url rest se _ b hb _ hub
            (List.mem_cons_self _ _)
      · have hpair := validateAux_pairwise_url rest se su
        simp only [validateAux]
        simp [h1, h3, List.pairwise_cons]
        refine ⟨?_, hpair⟩
        intro b hb
        left
        simp [urlKey, h3]

/-- C2 (amended): `validate_contacts` processes candidates in input order
and keeps an order-preserving subsequence, recording exactly one
`Duplicate` diagnostic per dropped candidate, and no two kept candidates
share a (present) lower-cased e-mail or lower-cased profile URL.  However
a candidate that passes the e-mail check adds its lower-cased e-mail to
the seen set even when it is then dropped for a duplicate profile URL, so
a dropped candidate can cause a later, otherwise-unique candidate to be
dropped (see the counterexample). -/
theorem claim_C2_dedup_properties (cs : List Contact) :
    (validateContacts cs).1.Sublist cs ∧
    cs.length = (validateContacts cs).1.length + (validateContacts cs).2.length ∧
    ((validateContacts cs).1.Pairwise fun a b => emailKey a = none ∨ emailKey a ≠ emailKey b) ∧
    ((validateContacts cs).1.Pairwise fun a b => urlKey a = none ∨ urlKey a ≠ urlKey b) :=
  ⟨validateAux_sublist cs [] [], validateAux_length cs [] [],
   validateAux_pairwise_email cs [] [], validateAux_pairwise_url cs [] []⟩

/-! ## Claim C3: non-empty names for gated rows -/

theorem append_ne_empty_of_right (a : String) {b : String} (hb : b ≠ "") : a ++ b ≠ "" := by
  intro h
  have hd := congrArg String.data h
  rw [String.data_append a b] at hd
  have hbd : b.data = [] := (List.append_eq_nil.mp (by simpa using hd)).2
  exact hb (String.ext hbd)

theorem pyTitleAux_ne_nil (b : Bool) (l : List Char) (h : l ≠ []) : pyTitleAux b l ≠ [] := by
  cases l with
  | nil => exact absurd rfl h
  | cons c t =>
    unfold pyTitleAux
    split
    · simp
    · simp

/-- A normalized row whose only signal is an e-mail with an empty local
part: it passes the validity gate yet `parse_name` returns `""`. -/
def rowAtEmail : List (String × String) := [("email", "@example.com")]

/-- C3 counterexample: the row `{email: "@example.com"}` passes the
validity gate, `row_to_contact` produces a contact, and that contact's
name is the empty string—`parse_name` title-cases the empty local part of
the e-mail and never reaches the `"Unknown Contact"` fallback. -/
theorem claim_C3_counterexample :
    rowNormalized rowAtEmail = true ∧
    isValidContactRow rowAtEmail = true ∧
    (rowToContact rowAtEmail 1 dtZero dtZero).1.map Contact.name = some "" := by
  decide

/-- Core of the amended C3: `parse_name` yields a non-empty string for
every normalized row except when every name source is empty and the
e-mail begins with `@` (empty local part). -/
theorem parseName_ne_empty (row : List (String × String))
    (hnorm : rowNormalized row = true)
    (hloc : dictGet row "name" ≠ "" ∨ dictGet row "first_name" ≠ "" ∨
            dictGet row "last_name" ≠ "" ∨ dictGet row "company" ≠ "" ∨
            (dictGet row "email").data.head? ≠ some '@') :
    parseName row ≠ "" := by
  have hsn := dictGet_normalized hnorm "name"
  have hsf := dictGet_normalized hnorm "first_name"
  have hsl := dictGet_normalized hnorm "last_name"
  have hsc := dictGet_normalized hnorm "company"
  have hse := dictGet_normalized hnorm "email"
  unfold parseName
  by_cases hn : dictGet row "name" = ""
  · rw [if_neg (by simp [hn])]
    simp only [hsf, hsl, hsc, hse]
    by_cases hf : dictGet row "first_name" = ""
    · by_cases hl : dictGet row "last_name" = ""
      · rw [if_neg (by simp [hf]), if_neg (by simp [hf]), if_neg (by simp [hl])]
        by_cases hc : dictGet row "company" = ""
        · rw [if_neg (by simp [hc])]
          by_cases he : dictGet row "email" = ""
          · rw [if_neg (by simp [he])]
            decide
          · have hat : (dictGet row "email").data.head? ≠ some '@' := by
              rcases hloc with h | h | h | h | h
              · exact absurd hn h
              · exact absurd hf h
              · exact absurd hl h
              · exact absurd hc h
              · exact h
            rw [if_pos (by simp [he])]
            intro hcontra
            have hdat : pyTitleAux false (replChar '_' ' ' (replChar '.' ' '
                (emailLocalPart (dictGet row "email")).data)) = [] :=
              congrArg String.data hcontra
            cases hed : (dictGet row "email").data with
            | nil => exact he (String.ext hed)
            | cons ch tl =>
              have hch : (ch == '@') = false := by
                rw [hed] at hat
                simpa using hat
              have hlp : (emailLocalPart (dictGet row "email")).data
                  = ch :: (tl.takeWhile fun c => !(c == '@')) := by
                unfold emailLocalPart
                rw [hed]
                simp [hch]
              exact pyTitleAux_ne_nil false _ (by simp [hlp, replChar]) hdat
        · rw [if_pos (by simp [hc])]
          exact append_ne_empty_of_right _ hc
      · rw [if_neg (by simp [hf]), if_neg (by simp [hf]), if_pos (by simp [hl])]
        exact hl
    · by_cases hl : dictGet row "last_name" = ""
      · rw [if_neg (by simp [hl]), if_pos (by simp [hf])]
        exact hf
      · rw [if_pos (by simp [hf, hl])]
        exact append_ne_empty_of_right _ hl
  · rw [if_pos (by simp [hn]), hsn]
    exact hn

/-- C3 (amended): for every normalized row that passes the validity gate,
`row_to_contact` produces a contact whose name is non-empty, provided the
row is not the pathological case in which every name source (full name,
first, last, company) is empty and the e-mail starts with `@`—there the
title-cased local part is empty and the produced name is `""`. -/
theorem claim_C3_name_nonempty (row : List (String × String)) (i : Nat)
    (nowParse nowCreate : DateTime)
    (hnorm : rowNormalized row = true)
    (hvalid : isValidContactRow row = true)
    (hloc : dictGet row "name" ≠ "" ∨ dictGet row "first_name" ≠ "" ∨
            dictGet row "last_name" ≠ "" ∨ dictGet row "company" ≠ "" ∨
            (dictGet row "email").data.head? ≠ some '@') :
    ∃ c, (rowToContact row i nowParse nowCreate).1 = some c ∧ c.name ≠ "" := by
  have hname := parseName_ne_empty row hnorm hloc
  unfold rowToContact
  rw [hvalid]
  exact ⟨_, rfl, hname⟩

/-- C3 witness: a normalized first+last-name row produces a contact with a
non-empty name. -/
theorem claim_C3_witness :
    ∃ c, (rowToContact [("first_name", "Ada"), ("last_name", "Lovelace")] 3 dtZero dtZero).1
        = some c ∧ c.name ≠ "" :=
  claim_C3_name_nonempty [("first_name", "Ada"), ("last_name", "Lovelace")] 3 dtZero dtZero
    (by decide) (by decide) (by decide)

/-! ## Claim C5: clean_phone_number -/

/-- The output shape asserted by the claim: decimal digits optionally
preceded by one leading plus sign. -/
def digitsWithOptionalLeadingPlus (s : String) : Bool :=
  match s.data with
  | '+' :: rest => rest.all fun c => c.isDigit
  | l => l.all fun c => c.isDigit

/-- C5 counterexample: `clean_phone_number` keeps interior plus signs, so
on `"1+2"` it returns `"1+2"`, which is not digits with at most one
leading plus. -/
theorem claim_C5_counterexample :
    cleanPhoneNumber "1+2" = "1+2" ∧
    digitsWithOptionalLeadingPlus (cleanPhoneNumber "1+2") = false := by
  decide

/-- C5 (amended): `clean_phone_number` removes every character that is
neither a decimal digit nor a plus sign and keeps all digits and all plus
signs wherever they occur (the `lstrip('+')` branch only runs when the
filtered string has no leading plus, so it never removes anything); every
character of the result is a digit or a plus sign. -/
theorem claim_C5_filters_to_digits_and_plus (s : String) :
    cleanPhoneNumber s = ⟨s.data.filter fun c => c.isDigit || c == '+'⟩ ∧
    ((cleanPhoneNumber s).data.all fun c => c.isDigit || c == '+') = true := by
  have hmain : cleanPhoneNumber s = ⟨s.data.filter fun c => c.isDigit || c == '+'⟩ := by
    unfold cleanPhoneNumber
    by_cases h : s = ""
    · subst h
      rfl
    · rw [if_neg (by simpa using h)]
      set cleaned := s.data.filter fun c => c.isDigit || c == '+' with hc
      by_cases hp : cleaned.head? == some '+'
      · rw [if_pos hp]
      · rw [if_neg hp]
        cases hcl : cleaned with
        | nil => simp [hcl]
        | cons c cs =>
          have hcne : (c == '+') = false := by
            rw [hcl] at hp
            simpa using hp
          simp [hcl, List.dropWhile, hcne]
  refine ⟨hmain, ?_⟩
  rw [hmain]
  simp only [List.all_eq_true]
  intro c hcmem
  exact (List.mem_filter.mp hcmem).2

/-! ## Claims C4 and C7: shared processing-loop lemmas -/

/-- The contact (if any) a row maps to; `row_to_contact` uses its row
index only inside diagnostics, never in the contact itself. -/
def contactOfRow (nowParse nowCreate : DateTime) (row : List (String × String)) :
    Option Contact :=
  (rowToContact row 1 nowParse nowCreate).1

theorem rowToContact_fst_index_free (row : List (String × String)) (i : Nat)
    (nowParse nowCreate : DateTime) :
    (rowToContact row i nowParse nowCreate).1 = contactOfRow nowParse nowCreate row := by
  by_cases h : isValidContactRow row
  · simp [rowToContact, contactOfRow, h]
  · simp [rowToContact, contactOfRow, h]

theorem processChunkRows_fst (nowParse nowCreate : DateTime) :
    ∀ (rows : List (List (String × String))) (i : Nat),
    (processChunkRows nowParse nowCreate rows i).1
      = rows.filterMap (contactOfRow nowParse nowCreate)
  | [], i => rfl
  | row :: rest, i => by
    simp only [processChunkRows, List.filterMap_cons,
      rowToContact_fst_index_free row i nowParse nowCreate,
      processChunkRows_fst nowParse nowCreate rest (i + 1)]
    cases contactOfRow nowParse nowCreate row <;> rfl

theorem processLoop_no_timeout (nowParse nowCreate : DateTime)
    (timeoutSeconds : Nat) (timedOut : Nat → Bool) (totalRows : Nat)
    (htm : ∀ k, timedOut k = false) :
    ∀ (fuel : Nat) (rows : List (List (String × String))) (k i : Nat)
      (acc : List Contact) (errs : List String), rows.length ≤ fuel →
    (processLoop nowParse nowCreate timeoutSeconds timedOut totalRows
        fuel rows k i acc errs).1
      = acc ++ rows.filterMap (contactOfRow nowParse nowCreate)
  | fuel, [], k, i, acc, errs, _ => by
    cases fuel <;> simp [processLoop]
  | 0, row :: rest, k, i, acc, errs, hlen => by
    simp at hlen
  | fuel + 1, row :: rest, k, i, acc, errs, hlen => by
    have hdroplen : ((row :: rest).drop chunkSize).length ≤ fuel := by
      simp only [List.length_drop, List.length_cons] at hlen ⊢
      simp only [chunkSize]
      omega
    simp only [processLoop, htm k, Bool.false_eq_true, if_false]
    rw [processLoop_no_timeout nowParse nowCreate timeoutSeconds timedOut totalRows htm
      fuel _ _ _ _ _ hdroplen]
    rw [processChunkRows_fst]
    rw [List.append_assoc, ← List.filterMap_append]
    rw [List.take_append_drop]

/-- The first timeout check that fires truncates processing to the rows
before that chunk and appends the timeout diagnostic with the counts at
the break. -/
theorem processLoop_timeout (nowParse nowCreate : DateTime)
    (timeoutSeconds : Nat) (timedOut : Nat → Bool) (totalRows : Nat) :
    ∀ (K fuel : Nat) (rows : List (List (String × String))) (k i : Nat)
      (acc : List Contact) (errs : List String),
    (∀ j, j < K → timedOut (k + j) = false) → timedOut (k + K) = true →
    K * chunkSize < rows.length → rows.length ≤ fuel →
    ∃ E, processLoop nowParse nowCreate timeoutSeconds timedOut totalRows
        fuel rows k i acc errs
      = (acc ++ (rows.take (K * chunkSize)).filterMap (contactOfRow nowParse nowCreate),
         E ++ [timeoutChunkMsg timeoutSeconds
           (acc ++ (rows.take (K * chunkSize)).filterMap
             (contactOfRow nowParse nowCreate)).length totalRows])
  | 0, fuel, rows, k, i, acc, errs, hsafe, hfire, hK, hlen => by
    cases rows with
    | nil => simp at hK
    | cons row rest =>
      cases fuel with
      | zero => simp at hlen
      | succ f =>
        refine ⟨errs, ?_⟩
        simp only [Nat.zero_mul, List.take_zero, List.filterMap_nil, List.append_nil]
        simp only [Nat.add_zero] at hfire
        simp [processLoop, hfire]
  | K + 1, fuel, rows, k, i, acc, errs, hsafe, hfire, hK, hlen => by
    cases rows with
    | nil => simp at hK
    | cons row rest =>
      cases fuel with
      | zero => simp at hlen
      | succ f =>
        have h0 : timedOut k = false := by
          have := hsafe 0 (Nat.succ_pos K)
          simpa using this
        have hdropK : K * chunkSize < ((row :: rest).drop chunkSize).length := by
          simp only [List.length_drop, List.length_cons] at hK ⊢
          simp only [chunkSize, Nat.succ_mul] at hK ⊢
          omega
        have hdroplen : ((row :: rest).drop chunkSize).length ≤ f := by
          simp only [List.length_drop, List.length_cons] at hlen ⊢
          simp only [chunkSize]
          omega
        have hsafe' : ∀ j, j < K → timedOut (k + 1 + j) = false := by
          intro j hj
          have := hsafe (j + 1) (by omega)
          simpa [Nat.add_assoc, Nat.add_comm 1 j] using this
        have hfire' : timedOut (k + 1 + K) = true := by
          have : k + 1 + K = k + (K + 1) := by omega
          rw [this]
          exact hfire
        obtain ⟨E, hE⟩ := processLoop_timeout nowParse nowCreate timeoutSeconds
          timedOut totalRows K f ((row :: rest).drop chunkSize) (k + 1)
          (i + ((row :: rest).take chunkSize).length)
          (acc ++ (processChunkRows nowParse nowCreate
            ((row :: rest).take chunkSize) i).1)
          (errs ++ (processChunkRows nowParse nowCreate
            ((row :: rest).take chunkSize) i).2)
          hsafe' hfire' hdropK hdroplen
        refine ⟨E, ?_⟩
        simp only [processLoop, h0, Bool.false_eq_true, if_false]
        rw [hE, processChunkRows_fst]
        have hsplit : (row :: rest).take ((K + 1) * chunkSize)
            = (row :: rest).take chunkSize
              ++ ((row :: rest).drop chunkSize).take (K * chunkSize) := by
          have : (K + 1) * chunkSize = chunkSize + K * chunkSize := by ring
          rw [this, List.take_add]
        rw [hsplit, List.filterMap_append, ← List.append_assoc]

/-! ## Claim C4: the validity gate -/

theorem isValidContactRow_iff (row : List (String × String)) :
    isValidContactRow row = true ↔
      (pyStrip (dictGet row "first_name") ≠ "" ∨ pyStrip (dictGet row "last_name") ≠ "" ∨
       pyStrip (dictGet row "company") ≠ "" ∨ pyStrip (dictGet row "email") ≠ "" ∨
       pyStrip (dictGet row "profile_url") ≠ "") := by
  unfold isValidContactRow
  simp only [Bool.or_eq_true, Bool.not_eq_true', beq_eq_false_iff_ne]
  tauto

/-- C4: `row_to_contact` produces a contact exactly when the row has at
least one substantive signal (a non-empty trimmed first name, last name,
company, e-mail or profile URL); a failing row gets the row-indexed
skip diagnostic; and an invalid row in the middle of a batch leaves the
contacts produced from the surrounding rows unchanged (processing
continues, it does not abort). -/
theorem claim_C4_validity_gate (row : List (String × String)) (i : Nat)
    (nowParse nowCreate : DateTime) :
    ((rowToContact row i nowParse nowCreate).1.isSome = true ↔
      (pyStrip (dictGet row "first_name") ≠ "" ∨ pyStrip (dictGet row "last_name") ≠ "" ∨
       pyStrip (dictGet row "company") ≠ "" ∨ pyStrip (dictGet row "email") ≠ "" ∨
       pyStrip (dictGet row "profile_url") ≠ "")) ∧
    (isValidContactRow row = false →
      (rowToContact row i nowParse nowCreate).2
        = ["Row " ++ Nat.repr i ++ ": Missing First Name or Last Name - skipping"]) ∧
    (isValidContactRow row = false →
      ∀ (timedOut : Nat → Bool) (timeoutSeconds totalRows : Nat),
      (∀ k, timedOut k = false) →
      ∀ rows1 rows2 : List (List (String × String)),
        (processLoop nowParse nowCreate timeoutSeconds timedOut totalRows
          (rows1 ++ row :: rows2).length (rows1 ++ row :: rows2) 0 1 [] []).1
        = (processLoop nowParse nowCreate timeoutSeconds timedOut totalRows
          (rows1 ++ rows2).length (rows1 ++ rows2) 0 1 [] []).1) := by
  refine ⟨?_, ?_, ?_⟩
  · rw [← isValidContactRow_iff]
    by_cases h : isValidContactRow row
    · simp [rowToContact, h]
    · simp [rowToContact, h]
  · intro h
    simp [rowToContact, h]
  · intro h timedOut timeoutSeconds totalRows htm rows1 rows2
    rw [processLoop_no_timeout nowParse nowCreate timeoutSeconds timedOut totalRows htm
        _ _ _ _ _ _ (Nat.le_refl _),
      processLoop_no_timeout nowParse nowCreate timeoutSeconds timedOut totalRows htm
        _ _ _ _ _ _ (Nat.le_refl _)]
    have hnone : contactOfRow nowParse nowCreate row = none := by
      simp [contactOfRow, rowToContact, h]
    simp [List.filterMap_append, List.filterMap_cons, hnone]

/-- C4 witness: a company-only row is accepted; an empty row is skipped
with the row-indexed diagnostic. -/
theorem claim_C4_witness :
    ((rowToContact [("company", "Acme")] 2 dtZero dtZero).1.isSome = true) ∧
    (rowToContact ([] : List (String × String)) 5 dtZero dtZero).2
      = ["Row " ++ Nat.repr 5 ++ ": Missing First Name or Last Name - skipping"] :=
  ⟨(claim_C4_validity_gate [("company", "Acme")] 2 dtZero dtZero).1.mpr (by decide),
   (claim_C4_validity_gate ([] : List (String × String)) 5 dtZero dtZero).2.1 (by decide)⟩

/-! ## Claim C7: timeout returns a prefix of the results -/

/-- C7: when the K-th chunk-level timeout check is the first to fire (the
wall clock exceeded the budget with chunk K still pending),
`process_csv_file_async` stops there: it returns exactly the contacts of
the first K·1000 parsed rows—a prefix of the contacts a full run would
produce—and the error list contains the timeout diagnostic carrying the
counts processed so far.  The embedding is a total function returning
normally, matching the source's policy of not raising to the caller. -/
theorem claim_C7_timeout_partial (content : List Nat) (timeoutSeconds : Nat)
    (timedOut : Nat → Bool) (nowParse nowCreate : DateTime) (K : Nat)
    (hK : K * chunkSize < (parseCSVContent content).1.length)
    (hsafe : ∀ j, j < K → timedOut j = false)
    (hfire : timedOut K = true) :
    (processCSVFileAsync content timeoutSeconds false timedOut nowParse nowCreate).1
      = ((parseCSVContent content).1.take (K * chunkSize)).filterMap
          (contactOfRow nowParse nowCreate) ∧
    (processCSVFileAsync content timeoutSeconds false timedOut nowParse nowCreate).1 <+:
      (parseCSVContent content).1.filterMap (contactOfRow nowParse nowCreate) ∧
    timeoutChunkMsg timeoutSeconds
        (processCSVFileAsync content timeoutSeconds false timedOut nowParse nowCreate).1.length
        (parseCSVContent content).1.length
      ∈ (processCSVFileAsync content timeoutSeconds false timedOut nowParse nowCreate).2.2 := by
  obtain ⟨E, hE⟩ := processLoop_timeout nowParse nowCreate timeoutSeconds timedOut
    (parseCSVContent content).1.length K (parseCSVContent content).1.length
    (parseCSVContent content).1 0 1 [] (parseCSVContent content).2
    (by
      intro j hj
      simpa using hsafe j hj)
    (by simpa using hfire) hK (Nat.le_refl _)
  have hne : (parseCSVContent content).1.isEmpty = false := by
    cases hrows : (parseCSVContent content).1 with
    | nil =>
      rw [hrows] at hK
      simp at hK
    | cons a l => rfl
  have h1 : (processCSVFileAsync content timeoutSeconds false timedOut nowParse nowCreate).1
      = ((parseCSVContent content).1.take (K * chunkSize)).filterMap
          (contactOfRow nowParse nowCreate) := by
    simp only [processCSVFileAsync, hne, Bool.false_eq_true, if_false]
    rw [hE]
    simp
  have h3 : timeoutChunkMsg timeoutSeconds
      (((parseCSVContent content).1.take (K * chunkSize)).filterMap
        (contactOfRow nowParse nowCreate)).length
      (parseCSVContent content).1.length
      ∈ (processCSVFileAsync content timeoutSeconds false timedOut nowParse nowCreate).2.2 := by
    simp only [processCSVFileAsync, hne, Bool.false_eq_true, if_false]
    rw [hE]
    split <;> simp
  refine ⟨h1, ?_, ?_⟩
  · rw [h1]
    refine ⟨((parseCSVContent content).1.drop (K * chunkSize)).filterMap
      (contactOfRow nowParse nowCreate), ?_⟩
    rw [← List.filterMap_append, List.take_append_drop]
  · rw [h1]
    exact h3

def asciiBytes (s : String) : List Nat := s.data.map Char.toNat

/-- A small well-formed CSV upload used to exercise the pipeline. -/
def contentSmallCSV : List Nat := asciiBytes "First Name,Last Name,URL\nA,B,c"

/-- C7 witness: with a clock that is already past the budget at the first
check, the pipeline returns no contacts and reports the timeout with the
counts so far. -/
theorem claim_C7_witness :
    (processCSVFileAsync contentSmallCSV 30 false (fun _ => true) dtZero dtZero).1
      = ((parseCSVContent contentSmallCSV).1.take (0 * chunkSize)).filterMap
          (contactOfRow dtZero dtZero) ∧
    (processCSVFileAsync contentSmallCSV 30 false (fun _ => true) dtZero dtZero).1 <+:
      (parseCSVContent contentSmallCSV).1.filterMap (contactOfRow dtZero dtZero) ∧
    timeoutChunkMsg 30
        (processCSVFileAsync contentSmallCSV 30 false (fun _ => true) dtZero dtZero).1.length
        (parseCSVContent contentSmallCSV).1.length
      ∈ (processCSVFileAsync contentSmallCSV 30 false (fun _ => true) dtZero dtZero).2.2 :=
  claim_C7_timeout_partial contentSmallCSV 30 (fun _ => true) dtZero dtZero 0
    (by decide) (fun j hj => absurd hj (Nat.not_lt_zero j)) rfl

/-! ## Claim C6: unsupported spreadsheet containers are rejected -/

/-- C6: any byte buffer beginning with the zip signature `PK` or the
legacy compound-document magic number is rejected before decoding:
`parse_csv_content` returns zero rows together with a single diagnostic
that names the unsupported format (Numbers or Excel) and instructs
conversion to CSV, regardless of the rest of the buffer (the file
extension never reaches the function). -/
theorem claim_C6_unsupported_format (content : List Nat)
    (h : zipSignature.isPrefixOf content = true ∨
         compoundDocSignature.isPrefixOf content = true) :
    ∃ msg, parseCSVContent content = ([], [msg]) ∧
      (msg = numbersMsg ∨ msg = excelMsg) ∧
      (strContains msg "Numbers" || strContains msg "Excel") = true ∧
      strContains msg "CSV" = true := by
  by_cases h1 : (zipSignature.isPrefixOf content
      || occursInList numbersBytes (content.take 100)) = true
  · refine ⟨numbersMsg, ?_, Or.inl rfl, by decide, by decide⟩
    simp [parseCSVContent, h1]
  · have h2 : compoundDocSignature.isPrefixOf content = true := by
      rcases h with hz | hc
      · exact absurd (by simp [hz]) h1
      · exact hc
    have hz : zipSignature.isPrefixOf content = false := by
      cases hzz : zipSignature.isPrefixOf content with
      | false => rfl
      | true => exact absurd (by simp [hzz]) h1
    have hnum : occursInList numbersBytes (content.take 100) = false := by
      cases hnn : occursInList numbersBytes (content.take 100) with
      | false => rfl
      | true => exact absurd (by simp [hnn]) h1
    refine ⟨excelMsg, ?_, Or.inr rfl, by decide, by decide⟩
    simp [parseCSVContent, hz, hnum, h2]

/-- C6 witness: a zip-container buffer (the `.xlsx`/`.numbers` signature)
is rejected with a format-naming, CSV-instructing diagnostic. -/
theorem claim_C6_witness :
    ∃ msg, parseCSVContent [0x50, 0x4B, 0x03, 0x04] = ([], [msg]) ∧
      (msg = numbersMsg ∨ msg = excelMsg) ∧
      (strContains msg "Numbers" || strContains msg "Excel") = true ∧
      strContains msg "CSV" = true :=
  claim_C6_unsupported_format [0x50, 0x4B, 0x03, 0x04] (Or.inl (by decide))

/-! ## Claim C10: zip buffers are always reported as Numbers files -/

theorem parseCSVText_no_excel (text : String) : excelMsg ∉ (parseCSVText text).2 := by
  by_cases hdelim : (!(strContains text "," || strContains text ";"
      || strContains text "\t")) = true
  · suffices h : ¬ excelMsg = notCSVMsg by simpa [parseCSVText, hdelim] using h
    decide
  · by_cases hempty : (pySplitNewline (pyStrip text)).isEmpty = true
    · suffices h : ¬ excelMsg = emptyCSVMsg by
        simpa [parseCSVText, hdelim, hempty] using h
      decide
    · cases hfh : findHeaderRow (pySplitNewline (pyStrip text))
          (detectDelimiterSimple text) with
      | none =>
        suffices h : ¬ excelMsg = noHeaderMsg by
          simpa [parseCSVText, hdelim, hempty, hfh] using h
        decide
      | some p =>
        obtain ⟨hi, hr⟩ := p
        by_cases hhr : hr.isEmpty = true
        · suffices h : ¬ excelMsg = noHeaderMsg by
            simpa [parseCSVText, hdelim, hempty, hfh, hhr] using h
          decide
        · simp [parseCSVText, hdelim, hempty, hfh, hhr]

/-- C10: every buffer starting with `PK` takes the first branch and is
reported as a Numbers file, and the Excel diagnostic is emitted only for
buffers starting with the compound-document signature, so zip-based
Excel (`.xlsx`) uploads are always reported as Numbers files, never as
Excel files. -/
theorem claim_C10_pk_reported_as_numbers :
    (∀ content : List Nat, zipSignature.isPrefixOf content = true →
      parseCSVContent content = ([], [numbersMsg])) ∧
    (∀ content : List Nat, excelMsg ∈ (parseCSVContent content).2 →
      compoundDocSignature.isPrefixOf content = true) := by
  constructor
  · intro content hz
    simp [parseCSVContent, hz]
  · intro content hmem
    by_cases h1 : (zipSignature.isPrefixOf content
        || occursInList numbersBytes (content.take 100)) = true
    · rw [show parseCSVContent content = ([], [numbersMsg]) by
        simp [parseCSVContent, h1]] at hmem
      simp only [List.mem_singleton] at hmem
      exact absurd hmem (by decide)
    · have hc1 : (zipSignature.isPrefixOf content
          || occursInList numbersBytes (content.take 100)) = false := by
        cases hcc : (zipSignature.isPrefixOf content
            || occursInList numbersBytes (content.take 100)) with
        | false => rfl
        | true => exact absurd hcc h1
      have hz : zipSignature.isPrefixOf content = false := by
        cases hzz : zipSignature.isPrefixOf content with
        | false => rfl
        | true => exact absurd (by simp [hzz]) h1
      by_cases h2 : compoundDocSignature.isPrefixOf content = true
      · exact h2
      · exfalso
        have h2f : compoundDocSignature.isPrefixOf content = false := by
          cases hdd : compoundDocSignature.isPrefixOf content with
          | false => rfl
          | true => exact absurd hdd h2
        have hnum : occursInList numbersBytes (content.take 100) = false := by
          cases hnn : occursInList numbersBytes (content.take 100) with
          | false => rfl
          | true => exact absurd (by simp [hnn]) h1
        rw [show parseCSVContent content
            = parseCSVText ⟨decodeContent content⟩ by
          simp [parseCSVContent, hz, hnum, h2f]] at hmem
        exact parseCSVText_no_excel _ hmem

/-- C10 witness: a `PK` buffer gets the Numbers diagnostic; a buffer that
does produce the Excel diagnostic starts with the compound-document
signature. -/
theorem claim_C10_witness :
    parseCSVContent [0x50, 0x4B, 0x01, 0x02] = ([], [numbersMsg]) ∧
    compoundDocSignature.isPrefixOf [0xD0, 0xCF, 0x11, 0xE0, 0x00] = true :=
  ⟨claim_C10_pk_reported_as_numbers.1 [0x50, 0x4B, 0x01, 0x02] (by decide),
   claim_C10_pk_reported_as_numbers.2 [0xD0, 0xCF, 0x11, 0xE0, 0x00] (by decide)⟩

/-! ## Claim C9: the header locator skips banner lines -/

/-- C9: when the first three lines are banner/metadata text—lines that do
not pass the header test—and the fourth line is a LinkedIn header line,
`find_header_row` returns 0-based index 3 together with that line's
parsed cells (not an earlier index), and `detect_metadata_rows` of the
enhanced service likewise returns 3, so subsequent data rows align to the
true header. -/
theorem claim_C9_header_at_index_three
    (delim : Char) (l0 l1 l2 l3 : String) (rest : List String)
    (hb0 : headerQualifies delim l0 = false)
    (hb1 : headerQualifies delim l1 = false)
    (hb2 : headerQualifies delim l2 = false)
    (hh : headerQualifies delim l3 = true)
    (he0 : enhancedHeaderLine delim l0 = false)
    (he1 : enhancedHeaderLine delim l1 = false)
    (he2 : enhancedHeaderLine delim l2 = false)
    (heh : enhancedHeaderLine delim l3 = true) :
    findHeaderRow (l0 :: l1 :: l2 :: l3 :: rest) delim
      = some (3, csvFirstRecord delim l3) ∧
    detectMetadataRows (l0 :: l1 :: l2 :: l3 :: rest) delim = 3 := by
  constructor
  · unfold findHeaderRow
    simp [findHeaderRowAux, hb0, hb1, hb2, hh]
  · unfold detectMetadataRows
    simp [detectHeaderScan, List.take_succ_cons, he0, he1, he2, heh]

def bannerLine0 : String := "Notes:"

def bannerLine1 : String :=
  "\"When exporting your connection data, you may notice that some of the email addresses are missing.\""

def bannerLine2 : String := ""

def canonicalHeaderLine : String :=
  "First Name,Last Name,URL,Email Address,Company,Position,Connected On"

def sampleDataLine : String :=
  "John,Doe,https://linkedin.com/in/jdoe,john@x.com,Acme,CEO,25 Jun 2023"

/-- C9 witness: a LinkedIn export with two banner lines and a blank line
before the canonical header. -/
theorem claim_C9_witness :
    findHeaderRow [bannerLine0, bannerLine1, bannerLine2, canonicalHeaderLine,
        sampleDataLine] ','
      = some (3, csvFirstRecord ',' canonicalHeaderLine) ∧
    detectMetadataRows [bannerLine0, bannerLine1, bannerLine2, canonicalHeaderLine,
        sampleDataLine] ',' = 3 :=
  claim_C9_header_at_index_three ',' bannerLine0 bannerLine1 bannerLine2
    canonicalHeaderLine [sampleDataLine] (by decide) (by decide) (by decide)
    (by decide) (by decide) (by decide) (by decide) (by decide)

/-! ## Claim C8: canonical field names are fixed points of normalization -/

/-- C8: `normalize_field_name` is total by construction (it is a pure
function defined on every string), and each of the ten canonical field
names normalizes to itself, in both service variants. -/
theorem claim_C8_canonical_fixed_points :
    (normalizeFieldName "first_name" = "first_name" ∧
     normalizeFieldName "last_name" = "last_name" ∧
     normalizeFieldName "name" = "name" ∧
     normalizeFieldName "email" = "email" ∧
     normalizeFieldName "phone" = "phone" ∧
     normalizeFieldName "company" = "company" ∧
     normalizeFieldName "title" = "title" ∧
     normalizeFieldName "profile_url" = "profile_url" ∧
     normalizeFieldName "connected_on" = "connected_on" ∧
     normalizeFieldName "notes" = "notes") ∧
    (normalizeFieldNameEnhanced "first_name" = "first_name" ∧
     normalizeFieldNameEnhanced "last_name" = "last_name" ∧
     normalizeFieldNameEnhanced "name" = "name" ∧
     normalizeFieldNameEnhanced "email" = "email" ∧
     normalizeFieldNameEnhanced "phone" = "phone" ∧
     normalizeFieldNameEnhanced "company" = "company" ∧
     normalizeFieldNameEnhanced "title" = "title" ∧
     normalizeFieldNameEnhanced "profile_url" = "profile_url" ∧
     normalizeFieldNameEnhanced "connected_on" = "connected_on" ∧
     normalizeFieldNameEnhanced "notes" = "notes") := by
  decide

end ConnectorPro
